import Mathlib

/-!
Verification of the checkpoint ingestion pipeline of the `sui-indexer`
(`crates/sui-indexer/src/handlers/checkpoint_handler.rs`), shallowly
embedded in Lean 4.

The handler file is the authority; the data types it consumes
(`SuiTransactionBlockEffects`, `SuiObjectData`, the DB row models, …)
live in other crates and are modelled from the specification where
noted.  Machine integers are modelled as `Nat` / `Int` with explicit
wrapping where the source casts between `i64` and `u64`.
-/

namespace SuiIndexer

/-- `MULTI_GET_CHUNK_SIZE` constant from `checkpoint_handler.rs`. -/
def MULTI_GET_CHUNK_SIZE : Nat := 500

/-- `CHECKPOINT_QUEUE_LIMIT` constant from `checkpoint_handler.rs`. -/
def CHECKPOINT_QUEUE_LIMIT : Nat := 10

/-- `EPOCH_QUEUE_LIMIT` constant from `checkpoint_handler.rs`. -/
def EPOCH_QUEUE_LIMIT : Nat := 2

/-- Milliseconds slept between two `get_checkpoint` availability polls
(`Duration::from_millis(100)` in `download_checkpoint_data`). -/
def RPC_AVAILABILITY_POLL_INTERVAL_MS : Nat := 100

/-- Modelled from the spec: `ObjectStatus` (crate `models::objects`, not in
the provided sources).  The six statuses used by the handler. -/
inductive ObjectStatus where
  | Created
  | Mutated
  | Unwrapped
  | Deleted
  | Wrapped
  | UnwrappedThenDeleted
deriving DecidableEq

/-- Modelled from the spec: an object reference `(object_id, version)` as it
appears in effects lists (`SuiObjectRef` of `sui-json-rpc-types`, not in the
provided sources).  Ids and versions are opaque naturals. -/
structure SuiObjectRef where
  object_id : Nat
  version : Nat
deriving DecidableEq

/-- Modelled from the spec: an owned object reference wrapping a
`SuiObjectRef` (owner information is irrelevant to the handler). -/
structure OwnedObjectRef where
  reference : SuiObjectRef
deriving DecidableEq

/-- Modelled from the spec: the post-execution effects summary of one
transaction, restricted to the accessors the handler calls:
`created()`, `mutated()`, `unwrapped()`, `deleted()`, `wrapped()`,
`unwrapped_then_deleted()`, `transaction_digest()`. -/
structure SuiTransactionBlockEffects where
  created : List OwnedObjectRef
  mutated : List OwnedObjectRef
  unwrapped : List OwnedObjectRef
  deleted : List SuiObjectRef
  wrapped : List SuiObjectRef
  unwrapped_then_deleted : List SuiObjectRef
  transaction_digest : Nat
deriving DecidableEq

/-- Modelled from the spec: a `DeletedObject` DB row (crate
`models::objects`, not in the provided sources).  `DeletedObject::from`
receives the epoch, the optional checkpoint sequence number, the object
reference, the transaction digest and the status; the model keeps all of
them. -/
structure DeletedObject where
  epoch : Nat
  checkpoint : Option Nat
  oref : SuiObjectRef
  transaction_digest : Nat
  status : ObjectStatus
deriving DecidableEq

/-- `get_object_changes` from `checkpoint_handler.rs` (lines 631-656):
the `created()`, `mutated()` and `unwrapped()` references of the effects,
each tagged with its status, chained in that order. -/
def get_object_changes (effects : SuiTransactionBlockEffects) :
    List (Nat × Nat × ObjectStatus) :=
  let created := effects.created.map fun o =>
    (o.reference.object_id, o.reference.version, ObjectStatus.Created)
  let mutated := effects.mutated.map fun o =>
    (o.reference.object_id, o.reference.version, ObjectStatus.Mutated)
  let unwrapped := effects.unwrapped.map fun o =>
    (o.reference.object_id, o.reference.version, ObjectStatus.Unwrapped)
  created ++ mutated ++ unwrapped

/-- `get_deleted_db_objects` from `checkpoint_handler.rs` (lines 712-737):
the `deleted()`, `wrapped()` and `unwrapped_then_deleted()` references,
tagged `Deleted` / `Wrapped` / `UnwrappedThenDeleted`, chained in that
order and turned into `DeletedObject` rows. -/
def get_deleted_db_objects (effects : SuiTransactionBlockEffects)
    (epoch : Nat) (checkpoint : Option Nat) : List DeletedObject :=
  let deleted := effects.deleted.map fun o => (ObjectStatus.Deleted, o)
  let wrapped := effects.wrapped.map fun o => (ObjectStatus.Wrapped, o)
  let utd := effects.unwrapped_then_deleted.map fun o =>
    (ObjectStatus.UnwrappedThenDeleted, o)
  (deleted ++ wrapped ++ utd).map fun so =>
    { epoch := epoch
      checkpoint := checkpoint
      oref := so.2
      transaction_digest := effects.transaction_digest
      status := so.1 }

/-- The object ids of the "present after" half of the footprint, as
returned by `get_object_changes`. -/
def changedIds (effects : SuiTransactionBlockEffects) : List Nat :=
  (get_object_changes effects).map fun x => x.1

/-- The object ids of the "absent after" half of the footprint, as
returned by `get_deleted_db_objects`. -/
def deletedIds (effects : SuiTransactionBlockEffects)
    (epoch : Nat) (checkpoint : Option Nat) : List Nat :=
  (get_deleted_db_objects effects epoch checkpoint).map fun d => d.oref.object_id

/-- The ids the effects list as created, mutated or unwrapped ("present
after" half), read directly off the effects fields. -/
def presentIds (effects : SuiTransactionBlockEffects) : List Nat :=
  effects.created.map (fun o => o.reference.object_id)
    ++ effects.mutated.map (fun o => o.reference.object_id)
    ++ effects.unwrapped.map (fun o => o.reference.object_id)

/-- The ids the effects list as deleted, wrapped or unwrapped-then-deleted
("absent after" half), read directly off the effects fields. -/
def absentIds (effects : SuiTransactionBlockEffects) : List Nat :=
  effects.deleted.map (fun o => o.object_id)
    ++ effects.wrapped.map (fun o => o.object_id)
    ++ effects.unwrapped_then_deleted.map (fun o => o.object_id)

/-- The ids touched by the effects: all six status lists, in source
order.  This is the "object-mutation footprint" of the spec. -/
def footprintIds (effects : SuiTransactionBlockEffects) : List Nat :=
  effects.created.map (fun o => o.reference.object_id)
    ++ effects.mutated.map (fun o => o.reference.object_id)
    ++ effects.unwrapped.map (fun o => o.reference.object_id)
    ++ effects.deleted.map (fun o => o.object_id)
    ++ effects.wrapped.map (fun o => o.object_id)
    ++ effects.unwrapped_then_deleted.map (fun o => o.object_id)

/-- Spec-side description of `object_changes` (spec section 4.1): the
(id, version, status) tuples of `created()`, then `mutated()`, then
`unwrapped()`, concatenated in that order. -/
def object_changes_spec (effects : SuiTransactionBlockEffects) :
    List (Nat × Nat × ObjectStatus) :=
  effects.created.map (fun o =>
      (o.reference.object_id, o.reference.version, ObjectStatus.Created))
    ++ effects.mutated.map (fun o =>
      (o.reference.object_id, o.reference.version, ObjectStatus.Mutated))
    ++ effects.unwrapped.map (fun o =>
      (o.reference.object_id, o.reference.version, ObjectStatus.Unwrapped))

/-- Spec-side description of `deleted_objects` (spec section 4.1): the
`DeletedObject` rows of `deleted()`, then `wrapped()`, then
`unwrapped_then_deleted()`, concatenated in that order. -/
def deleted_objects_spec (effects : SuiTransactionBlockEffects)
    (epoch : Nat) (checkpoint : Option Nat) : List DeletedObject :=
  effects.deleted.map (fun o =>
      { epoch := epoch, checkpoint := checkpoint, oref := o
        transaction_digest := effects.transaction_digest
        status := ObjectStatus.Deleted })
    ++ effects.wrapped.map (fun o =>
      { epoch := epoch, checkpoint := checkpoint, oref := o
        transaction_digest := effects.transaction_digest
        status := ObjectStatus.Wrapped })
    ++ effects.unwrapped_then_deleted.map (fun o =>
      { epoch := epoch, checkpoint := checkpoint, oref := o
        transaction_digest := effects.transaction_digest
        status := ObjectStatus.UnwrappedThenDeleted })

/-- Wrapping of an unbounded integer into the `i64` range, the overflow
semantics of Rust release-mode `i64` arithmetic. -/
def wrapS64 (x : Int) : Int := (x + 2 ^ 63) % 2 ^ 64 - 2 ^ 63

/-- The `as u64` cast applied to an `i64` value: reinterpretation modulo
`2^64`. -/
def i64ToU64 (x : Int) : Nat := (x % 2 ^ 64).toNat

/-- The `i64` cursor of `start_download_and_index` before iteration `k`
(lines 147-221): `next_cursor_sequence_number = last_seq_from_db + 1`
initially, incremented by one after each successful iteration. -/
def cursorAt (last_seq_from_db : Int) : Nat → Int
  | 0 => wrapS64 (last_seq_from_db + 1)
  | k + 1 => wrapS64 (cursorAt last_seq_from_db k + 1)

/-- The `u64` sequence number passed to `download_checkpoint_data` at
iteration `k` (`next_cursor_sequence_number as u64`, line 161). -/
def requestedSeqAt (last_seq_from_db : Int) (k : Nat) : Nat :=
  i64ToU64 (cursorAt last_seq_from_db k)

/-- Rust slice `chunks(c)`: consecutive chunks of size `c`, the last one
possibly shorter.  The handler only uses `c = MULTI_GET_CHUNK_SIZE`. -/
def chunksOf (c : Nat) : List α → List (List α)
  | [] => []
  | x :: xs => (x :: xs.take (c - 1)) :: chunksOf c (xs.drop (c - 1))
termination_by l => l.length
decreasing_by simp; omega

/-- The lengths of the chunks of a list of length `n` under
`chunksOf c`, as a function of `n` alone. -/
def lengthChunks (c : Nat) : Nat → List Nat
  | 0 => []
  | n + 1 => (1 + min (c - 1) n) :: lengthChunks c (n - (c - 1))
termination_by n => n
decreasing_by omega

/-- Modelled from the spec: `SuiGetPastObjectRequest`, the
`(object_id, version)` pair sent to `try_multi_get_past_objects`. -/
structure SuiGetPastObjectRequest where
  object_id : Nat
  version : Nat
deriving DecidableEq

/-- Modelled from the spec: raw object payload (`SuiRawData`), either a
Move object or a Move package; contents opaque. -/
inductive SuiRawData where
  | moveObject (bytes : List Nat)
  | package (pkg : List Nat)
deriving DecidableEq

/-- Modelled from the spec: the object payload returned by a past-object
fetch (`SuiObjectData`), restricted to the fields the handler reads. -/
structure SuiObjectData where
  object_id : Nat
  version : Nat
  previous_transaction : Option Nat
  bcs : Option SuiRawData
deriving DecidableEq

/-- Modelled from the spec: a past-object lookup outcome
(`SuiPastObjectResponse`); `into_object` succeeds only when the version
was found. -/
inductive SuiPastObjectResponse where
  | versionFound (data : SuiObjectData)
  | versionNotFound (object_id : Nat) (version : Nat)
deriving DecidableEq

/-- Modelled from the spec: opaque sdk-level error. -/
structure SdkError where
  code : Nat
deriving DecidableEq

/-- `SuiPastObjectResponse::into_object`: the object data when the
version was found, an sdk error otherwise. -/
def intoObject : SuiPastObjectResponse → Except SdkError SuiObjectData
  | .versionFound d => .ok d
  | .versionNotFound _ _ => .error ⟨0⟩

/-- Crate error type `errors::IndexerError`, restricted to the variants
the handler constructs; message strings dropped. -/
inductive IndexerError where
  | FullNodeReadingError
  | SerdeError
  | MpscChannelError
  | other (code : Nat)
deriving DecidableEq

/-- The per-chunk body of the `try_fold` in `fetch_changed_objects`
(lines 682-691): issue the `try_multi_get_past_objects` call for one
chunk (modelled by `rpc`), convert every response with `into_object`,
zip the chunk's statuses with the returned data positionally, and append
to the accumulator. -/
def fetchChunkStep
    (rpc : List SuiGetPastObjectRequest → Except SdkError (List SuiPastObjectResponse))
    (acc : List (ObjectStatus × SuiObjectData))
    (objects : List (Nat × Nat × ObjectStatus)) :
    Except SdkError (List (ObjectStatus × SuiObjectData)) := do
  let wanted_past_object_statuses :=
    objects.map fun (x : Nat × Nat × ObjectStatus) => x.2.2
  let wanted_past_object_request :=
    objects.map fun (x : Nat × Nat × ObjectStatus) =>
      SuiGetPastObjectRequest.mk x.1 x.2.1
  let resps ← rpc wanted_past_object_request
  let object_datas ← resps.foldlM (fun acc2 resp => do
    let object_data ← intoObject resp
    pure (acc2 ++ [object_data])) []
  pure (acc ++ wanted_past_object_statuses.zip object_datas)

/-- `fetch_changed_objects` from `checkpoint_handler.rs` (lines 658-698):
chunk the object changes by `MULTI_GET_CHUNK_SIZE`, run `fetchChunkStep`
for every chunk, concatenating the per-chunk results; any error is
mapped to `SerdeError`. -/
def fetch_changed_objects
    (rpc : List SuiGetPastObjectRequest → Except SdkError (List SuiPastObjectResponse))
    (object_changes : List (Nat × Nat × ObjectStatus)) :
    Except IndexerError (List (ObjectStatus × SuiObjectData)) :=
  ((chunksOf MULTI_GET_CHUNK_SIZE object_changes).foldlM
    (fetchChunkStep rpc) []).mapError fun _ => IndexerError.SerdeError

/-- Modelled from the spec: the end-of-epoch payload of a checkpoint
envelope: the next committee as (validator name bytes, stake) pairs, the
next protocol version, and the ECMH live-object-set digests. -/
structure EndOfEpochData where
  next_epoch_committee : List (List Nat × Nat)
  next_epoch_protocol_version : Nat
  epoch_commitments : List (List Nat)
deriving DecidableEq

/-- Modelled from the spec: the checkpoint envelope returned by
`get_checkpoint`, restricted to the fields the handler reads. -/
structure Checkpoint where
  epoch : Nat
  sequence_number : Nat
  timestamp_ms : Nat
  transactions : List Nat
  end_of_epoch_data : Option EndOfEpochData
deriving DecidableEq

/-- Modelled from the spec: an emitted event with its Move type triple
and raw payload bytes. -/
structure SuiEvent where
  type_address : Nat
  type_module : String
  type_name : String
  bcs : List Nat
deriving DecidableEq

/-- Modelled from the spec: one fully downloaded transaction
(`CheckpointTransactionBlockResponse`), restricted to the fields the
handler reads. -/
structure CheckpointTransactionBlockResponse where
  digest : Nat
  sender : Nat
  effects : SuiTransactionBlockEffects
  events : List SuiEvent
deriving DecidableEq

/-- Modelled from the spec: the per-checkpoint bundle assembled by the
download stage (`store::CheckpointData`). -/
structure CheckpointData where
  checkpoint : Checkpoint
  transactions : List CheckpointTransactionBlockResponse
  changed_objects : List (ObjectStatus × SuiObjectData)
deriving DecidableEq

/-- The full-node interface consumed by `download_checkpoint_data`,
modelled as oracles: `getCheckpoint n` is the node's reply to the `n`-th
attempt of `get_checkpoint(seq)`, `multiGetFullTransactions` the reply
to one chunked transaction fetch, `pastObjects` the reply to one
`try_multi_get_past_objects` call. -/
structure FullNodeOracle where
  getCheckpoint : Nat → Except SdkError Checkpoint
  multiGetFullTransactions :
    List Nat → Except IndexerError (List CheckpointTransactionBlockResponse)
  pastObjects :
    List SuiGetPastObjectRequest → Except SdkError (List SuiPastObjectResponse)

/-- Extract the value of a successful `Except`. -/
def exceptGet {ε α : Type} : (e : Except ε α) → e.isOk = true → α
  | .ok a, _ => a

/-- The index of the first successful `get_checkpoint` attempt in the
availability loop of `download_checkpoint_data` (lines 318-349); every
earlier failed attempt is followed by one sleep of
`RPC_AVAILABILITY_POLL_INTERVAL_MS`. -/
def firstOkAttempt (oracle : FullNodeOracle)
    (h : ∃ n, (oracle.getCheckpoint n).isOk = true) : Nat := Nat.find h

/-- The checkpoint obtained once the availability loop exits (the
`checkpoint.unwrap()` of line 349). -/
def awaitedCheckpoint (oracle : FullNodeOracle)
    (h : ∃ n, (oracle.getCheckpoint n).isOk = true) : Checkpoint :=
  exceptGet (oracle.getCheckpoint (firstOkAttempt oracle h)) (Nat.find_spec h)

/-- The chunked transaction fetch of `download_checkpoint_data` (lines
355-363): one `multi_get_full_transactions` call per chunk of at most
`MULTI_GET_CHUNK_SIZE` digests, concatenated by a `try_fold`. -/
def downloadTransactions (oracle : FullNodeOracle) (ckpt : Checkpoint) :
    Except IndexerError (List CheckpointTransactionBlockResponse) :=
  (chunksOf MULTI_GET_CHUNK_SIZE ckpt.transactions).foldlM
    (fun acc digests => do
      let chunk ← oracle.multiGetFullTransactions digests
      pure (acc ++ chunk)) []

/-- The object changes of all downloaded transactions (lines 367-370):
`get_object_changes` flat-mapped over the transactions. -/
def objectChangesOf
    (transactions : List CheckpointTransactionBlockResponse) :
    List (Nat × Nat × ObjectStatus) :=
  transactions.flatMap fun tx => get_object_changes tx.effects

/-- `download_checkpoint_data` from `checkpoint_handler.rs` (lines
314-380): wait for the checkpoint to become available, retrying
`get_checkpoint` after each error; then fetch the full transactions in
chunks, derive the object changes and fetch the changed objects.  Errors
of the two later stages propagate to the caller. -/
def download_checkpoint_data (oracle : FullNodeOracle)
    (h : ∃ n, (oracle.getCheckpoint n).isOk = true) :
    Except IndexerError CheckpointData := do
  let checkpoint := awaitedCheckpoint oracle h
  let transactions ← downloadTransactions oracle checkpoint
  let changed_objects ←
    fetch_changed_objects oracle.pastObjects (objectChangesOf transactions)
  pure { checkpoint := checkpoint
         transactions := transactions
         changed_objects := changed_objects }

/-- An idealised node used as witness input: each requested
`(object_id, version)` is found and echoed back as object data. -/
def echoObject (r : SuiGetPastObjectRequest) : SuiObjectData :=
  { object_id := r.object_id
    version := r.version
    previous_transaction := none
    bcs := none }

/-- The rpc responses of the idealised node. -/
def echoRpc (reqs : List SuiGetPastObjectRequest) :
    Except SdkError (List SuiPastObjectResponse) :=
  .ok (reqs.map fun r => .versionFound (echoObject r))

/-- A two-element object-change list used as witness input. -/
def witnessChanges : List (Nat × Nat × ObjectStatus) :=
  [(1, 1, ObjectStatus.Created), (2, 3, ObjectStatus.Mutated)]

/-- The Move address of the system package (`SUI_SYSTEM_ADDRESS`,
`0x3`), modelled as the natural 3. -/
def SUI_SYSTEM_ADDRESS : Nat := 3

/-- Casting a `u64` value to `i64` (`as i64`): reinterpretation into the
signed 64-bit range. -/
def u64ToS64 (n : Nat) : Int := wrapS64 n

/-- Modelled from the spec: the decoded `SystemEpochInfoEvent` payload
(crate `models::epoch`, not in the provided sources): the economic
fields the handler copies into the last epoch row. -/
structure SystemEpochInfoEvent where
  stake_subsidy_amount : Int
  reference_gas_price : Int
  storage_fund_balance : Int
  total_gas_fees : Int
  total_stake_rewards_distributed : Int
  total_stake : Int
  storage_fund_reinvestment : Int
  storage_charge : Int
  protocol_version : Int
  storage_rebate : Int
  leftover_storage_fund_inflow : Int
deriving DecidableEq

/-- Modelled from the spec: a DB epoch row (`DBEpochInfo`, crate
`models::epoch`, not in the provided sources), with the fields the
handler writes. -/
structure DBEpochInfo where
  epoch : Int
  first_checkpoint_id : Int
  last_checkpoint_id : Option Int
  epoch_start_timestamp : Int
  epoch_end_timestamp : Option Int
  epoch_total_transactions : Int
  next_epoch_version : Option Int
  next_epoch_committee : List (Option (List Nat))
  next_epoch_committee_stake : List (Option Int)
  stake_subsidy_amount : Option Int
  reference_gas_price : Option Int
  storage_fund_balance : Option Int
  total_gas_fees : Option Int
  total_stake_rewards_distributed : Option Int
  total_stake : Option Int
  storage_fund_reinvestment : Option Int
  storage_charge : Option Int
  protocol_version : Option Int
  storage_rebate : Option Int
  leftover_storage_fund_inflow : Option Int
  epoch_commitments : List (Option (List Nat))
deriving DecidableEq

/-- The `Default::default()` epoch row. -/
def DBEpochInfo.zero : DBEpochInfo :=
  { epoch := 0
    first_checkpoint_id := 0
    last_checkpoint_id := none
    epoch_start_timestamp := 0
    epoch_end_timestamp := none
    epoch_total_transactions := 0
    next_epoch_version := none
    next_epoch_committee := []
    next_epoch_committee_stake := []
    stake_subsidy_amount := none
    reference_gas_price := none
    storage_fund_balance := none
    total_gas_fees := none
    total_stake_rewards_distributed := none
    total_stake := none
    storage_fund_reinvestment := none
    storage_charge := none
    protocol_version := none
    storage_rebate := none
    leftover_storage_fund_inflow := none
    epoch_commitments := [] }

/-- Modelled from the spec: the decoded system state summary
(`SuiSystemStateSummary`, crate `sui-types`, not in the provided
sources), restricted to the fields the handler reads; validator
summaries are opaque. -/
structure SuiSystemStateSummary where
  epoch : Nat
  epoch_start_timestamp_ms : Nat
  active_validators : List Nat
deriving DecidableEq

/-- Modelled from the spec: the epoch store produced at an epoch
boundary (`store::TemporaryEpochStore`); a validator row is keyed by
`(system_state.epoch, validator)`. -/
structure TemporaryEpochStore where
  last_epoch : Option DBEpochInfo
  new_epoch : DBEpochInfo
  system_state : SuiSystemStateSummary
  validators : List (Nat × Nat)
deriving DecidableEq

/-- `Option<Result<_>>::transpose()`. -/
def transposeOptExcept {ε α : Type} : Option (Except ε α) → Except ε (Option α)
  | none => .ok none
  | some (.ok a) => .ok (some a)
  | some (.error e) => .error e

/-- The predicate of the epoch-event search (lines 499-505): a
`SystemEpochInfoEvent` emitted by the system package module
`sui_system_state_inner`. -/
def isEpochEvent (ev : SuiEvent) : Bool :=
  ev.type_address == SUI_SYSTEM_ADDRESS
    && ev.type_module == "sui_system_state_inner"
    && ev.type_name == "SystemEpochInfoEvent"

/-- The genesis epoch store built by the first branch of the epoch index
(lines 483-493): no last epoch, epoch 0 starting at checkpoint 0. -/
def genesisEpochStore (system_state : SuiSystemStateSummary) :
    TemporaryEpochStore :=
  { last_epoch := none
    new_epoch := { DBEpochInfo.zero with
      epoch := 0
      first_checkpoint_id := 0
      epoch_start_timestamp := u64ToS64 system_state.epoch_start_timestamp_ms }
    system_state := system_state
    validators := system_state.active_validators.map
      fun v => (system_state.epoch, v) }

/-- The closed-epoch row built at a non-genesis boundary (lines
540-565). -/
def lastEpochRow (checkpoint : Checkpoint) (end_of_epoch_data : EndOfEpochData)
    (system_state : SuiSystemStateSummary)
    (event : Option SystemEpochInfoEvent) : DBEpochInfo :=
  let committee_split :=
    end_of_epoch_data.next_epoch_committee.foldl
      (fun (acc : List (Option (List Nat)) × List (Option Int)) nv =>
        (acc.1 ++ [some nv.1], acc.2 ++ [some (u64ToS64 nv.2)]))
      ([], [])
  { epoch := wrapS64 (u64ToS64 system_state.epoch - 1)
    first_checkpoint_id := 0
    last_checkpoint_id := some (u64ToS64 checkpoint.sequence_number)
    epoch_start_timestamp := 0
    epoch_end_timestamp := some (u64ToS64 checkpoint.timestamp_ms)
    epoch_total_transactions := 0
    next_epoch_version :=
      some (u64ToS64 end_of_epoch_data.next_epoch_protocol_version)
    next_epoch_committee := committee_split.1
    next_epoch_committee_stake := committee_split.2
    stake_subsidy_amount := event.map fun e => e.stake_subsidy_amount
    reference_gas_price := event.map fun e => e.reference_gas_price
    storage_fund_balance := event.map fun e => e.storage_fund_balance
    total_gas_fees := event.map fun e => e.total_gas_fees
    total_stake_rewards_distributed :=
      event.map fun e => e.total_stake_rewards_distributed
    total_stake := event.map fun e => e.total_stake
    storage_fund_reinvestment := event.map fun e => e.storage_fund_reinvestment
    storage_charge := event.map fun e => e.storage_charge
    protocol_version := event.map fun e => e.protocol_version
    storage_rebate := event.map fun e => e.storage_rebate
    leftover_storage_fund_inflow :=
      event.map fun e => e.leftover_storage_fund_inflow
    epoch_commitments :=
      end_of_epoch_data.epoch_commitments.map fun c => some c }

/-- The opened-epoch row built at a non-genesis boundary (lines
566-571). -/
def newEpochRow (checkpoint : Checkpoint)
    (system_state : SuiSystemStateSummary) : DBEpochInfo :=
  { DBEpochInfo.zero with
    epoch := u64ToS64 system_state.epoch
    first_checkpoint_id := wrapS64 (u64ToS64 checkpoint.sequence_number + 1)
    epoch_start_timestamp := u64ToS64 system_state.epoch_start_timestamp_ms }

/-- The boundary epoch store (lines 539-574). -/
def boundaryEpochStore (checkpoint : Checkpoint)
    (end_of_epoch_data : EndOfEpochData)
    (system_state : SuiSystemStateSummary)
    (event : Option SystemEpochInfoEvent) : TemporaryEpochStore :=
  { last_epoch := some (lastEpochRow checkpoint end_of_epoch_data
      system_state event)
    new_epoch := newEpochRow checkpoint system_state
    system_state := system_state
    validators := system_state.active_validators.map
      fun v => (system_state.epoch, v) }

/-- The epoch-indexing branch of `index_checkpoint` (lines 472-577).
`getSystemState` models `get_sui_system_state` (the system-state object
decode, crate `sui-types`, not in the provided sources) and
`decodeEpochEvent` models the bcs decode of the epoch event; both can
fail, and their failures propagate exactly as the `?` operators of the
source do.  `index_checkpoint` returns this value as the second
component of its output pair. -/
def index_epoch
    (getSystemState : CheckpointData → Except IndexerError SuiSystemStateSummary)
    (decodeEpochEvent : List Nat → Except IndexerError SystemEpochInfoEvent)
    (data : CheckpointData) :
    Except IndexerError (Option TemporaryEpochStore) :=
  let checkpoint := data.checkpoint
  let transactions := data.transactions
  if checkpoint.epoch = 0 ∧ checkpoint.sequence_number = 0 then do
    let system_state ← getSystemState data
    pure (some (genesisEpochStore system_state))
  else
    match checkpoint.end_of_epoch_data with
    | some end_of_epoch_data => do
        let system_state ← getSystemState data
        let epoch_event := transactions.findSome? fun tx =>
          tx.events.find? isEpochEvent
        let event ← transposeOptExcept
          (epoch_event.map fun e => decodeEpochEvent e.bcs)
        pure (some (boundaryEpochStore checkpoint end_of_epoch_data
          system_state event))
    | none => pure none

/-- A concrete end-of-epoch payload for witnesses. -/
def wEndOfEpochData : EndOfEpochData :=
  { next_epoch_committee := [([1], 10)]
    next_epoch_protocol_version := 2
    epoch_commitments := [] }

/-- A concrete boundary checkpoint bundle for witnesses: epoch 7 ends at
sequence 90. -/
def boundaryData : CheckpointData :=
  { checkpoint :=
      { epoch := 7, sequence_number := 90, timestamp_ms := 1234,
        transactions := [],
        end_of_epoch_data := some wEndOfEpochData }
    transactions := []
    changed_objects := [] }

/-- A concrete system state summary for witnesses. -/
def wSystemState : SuiSystemStateSummary :=
  { epoch := 8, epoch_start_timestamp_ms := 5678, active_validators := [4] }

/-- A system-state decoder for witnesses: always succeeds. -/
def wGetSystemState : CheckpointData → Except IndexerError SuiSystemStateSummary :=
  fun _ => .ok wSystemState

/-- An epoch-event decoder for witnesses (never reached: the witness
checkpoint carries no events). -/
def wDecodeEpochEvent : List Nat → Except IndexerError SystemEpochInfoEvent :=
  fun _ => .error IndexerError.SerdeError

/-- The epoch store `index_epoch` produces on `boundaryData`. -/
def wBoundaryStore : TemporaryEpochStore :=
  boundaryEpochStore boundaryData.checkpoint wEndOfEpochData wSystemState none

/-- Modelled from the spec: a package DB row (`models::packages`, not in
the provided sources), built from the transaction sender and the raw
Move package. -/
structure Package where
  sender : Nat
  pkg : List Nat
deriving DecidableEq

/-- Lookup in the association list standing for the `BTreeMap` of
`index_packages`: a later insert with the same key overwrites an earlier
one, so the last matching entry wins. -/
def lookupLast {α : Type} (m : List (Nat × α)) (key : Nat) : Option α :=
  (m.reverse.find? fun kv => kv.1 == key).map fun kv => kv.2

/-- The `object_map` construction of `index_packages` (lines 601-614):
keep the changed objects whose raw data is the package variant, keyed by
object id.  The result is `none` when any changed object lacks its `bcs`
field: the source calls
`o.bcs.as_ref().expect("Expect the content field to be non-empty from data fetching")`
on every element, so a missing field is a panic, modelled by `none`. -/
def packageObjectMap :
    List (ObjectStatus × SuiObjectData) → Option (List (Nat × List Nat))
  | [] => some []
  | (_, o) :: rest =>
    match o.bcs with
    | none => none
    | some (SuiRawData.package p) =>
        (packageObjectMap rest).map fun m => (o.object_id, p) :: m
    | some (SuiRawData.moveObject _) => packageObjectMap rest

/-- `collect::<Result<Vec<_>, _>>()`: the first error wins. -/
def collectExcept {ε α : Type} : List (Except ε α) → Except ε (List α)
  | [] => .ok []
  | e :: rest => do
      let a ← e
      let as ← collectExcept rest
      pure (a :: as)

/-- `index_packages` from `checkpoint_handler.rs` (lines 597-627), with
the `expect` panic modelled by the outer `Option` (`none` = process
abort): build the id-to-package map from the changed objects, then emit
one `Package` row for every created object reference that hits the map
(`Package::try_from`, crate `models::packages`, is modelled by `tryFrom`
and may fail with an `IndexerError`). -/
def index_packages
    (tryFrom : Nat → List Nat → Except IndexerError Package)
    (transactions : List CheckpointTransactionBlockResponse)
    (changed_objects : List (ObjectStatus × SuiObjectData)) :
    Option (Except IndexerError (List Package)) :=
  match packageObjectMap changed_objects with
  | none => none
  | some object_map => some (collectExcept
      (transactions.flatMap fun tx =>
        tx.effects.created.filterMap fun oref =>
          (lookupLast object_map oref.reference.object_id).map
            fun p => tryFrom tx.sender p))

/-- Modelled from the spec: an object DB row (`models::objects`, not in
the provided sources); `Object::from(epoch, checkpoint, status, o)`
keeps all its inputs. -/
structure DBObject where
  epoch : Nat
  checkpoint : Option Nat
  status : ObjectStatus
  data : SuiObjectData
deriving DecidableEq

/-- Modelled from the spec: the per-transaction object changes
(`store::TransactionObjectChanges`). -/
structure TransactionObjectChanges where
  changed_objects : List DBObject
  deleted_objects : List DeletedObject
deriving DecidableEq

/-- The grouping fold of `index_checkpoint` (lines 407-415): group the
changed objects by `previous_transaction` digest in input order; an
entry with no `previous_transaction` is skipped.  The `BTreeMap` is
modelled as a function from digests to groups. -/
def tx_objects (changed_objects : List (ObjectStatus × SuiObjectData)) :
    Nat → List (ObjectStatus × SuiObjectData) :=
  changed_objects.foldl
    (fun acc so =>
      match so.2.previous_transaction with
      | some digest => fun d => if d = digest then acc d ++ [so] else acc d
      | none => acc)
    fun _ => []

/-- The per-transaction object rows of `index_checkpoint` (lines
417-444): for each transaction in input order, its changed rows are its
group in `tx_objects` (empty if absent) and its deleted rows come from
`get_deleted_db_objects`. -/
def objects_changes (checkpoint : Checkpoint)
    (transactions : List CheckpointTransactionBlockResponse)
    (changed_objects : List (ObjectStatus × SuiObjectData)) :
    List TransactionObjectChanges :=
  transactions.map fun tx =>
    { changed_objects := (tx_objects changed_objects tx.digest).map fun so =>
        { epoch := checkpoint.epoch
          checkpoint := some checkpoint.sequence_number
          status := so.1
          data := so.2 }
      deleted_objects := get_deleted_db_objects tx.effects checkpoint.epoch
        (some checkpoint.sequence_number) }

/-- The observable actions of the pipeline tasks T1 and T2 relevant to
the genesis iteration. -/
inductive PipeEvent where
  | sendCkpt (seq : Nat)
  | recvCkpt (seq : Nat)
  | persistCheckpoint (seq : Nat)
  | persistEpoch
  | sendEpoch
  | processEvents (seq : Nat)
deriving DecidableEq

/-- The observable actions of one iteration of the T1 loop
`start_download_and_index` (lines 176-219), in program order: enqueue
the indexed checkpoint on Q_ckpt (line 178); then, if an epoch store was
produced, either persist it inline when `last_epoch` is `None` (line
192) or enqueue it on Q_epoch (line 198); finally run the event handler
(lines 212-216). -/
def t1IterationEvents (seq : Nat)
    (indexed_epoch : Option TemporaryEpochStore) : List PipeEvent :=
  [PipeEvent.sendCkpt seq] ++
  (match indexed_epoch with
   | none => []
   | some epoch =>
     match epoch.last_epoch with
     | none => [PipeEvent.persistEpoch]
     | some _ => [PipeEvent.sendEpoch]) ++
  [PipeEvent.processEvents seq]

/-- The observable actions of T2 (`start_checkpoint_commit`, lines
226-255) consuming one checkpoint: dequeue from Q_ckpt, then persist. -/
def t2IterationEvents (seq : Nat) : List PipeEvent :=
  [PipeEvent.recvCkpt seq, PipeEvent.persistCheckpoint seq]

/-- `Interleaves t1 t2 tr`: the schedule `tr` is a merge of the two task
traces preserving each task's program order. -/
inductive Interleaves {α : Type} : List α → List α → List α → Prop where
  | nil : Interleaves [] [] []
  | left {x : α} {xs ys zs : List α} :
      Interleaves xs ys zs → Interleaves (x :: xs) ys (x :: zs)
  | right {y : α} {xs ys zs : List α} :
      Interleaves xs ys zs → Interleaves xs (y :: ys) (y :: zs)

/-- Channel causality check: every dequeue of a sequence number must be
preceded by the matching enqueue. -/
def channelCausalGo (sent : List Nat) : List PipeEvent → Bool
  | [] => true
  | PipeEvent.sendCkpt s :: rest => channelCausalGo (s :: sent) rest
  | PipeEvent.recvCkpt s :: rest => sent.contains s && channelCausalGo sent rest
  | _ :: rest => channelCausalGo sent rest

/-- A legal schedule of the two tasks: an order-preserving merge in
which every dequeue happens after the matching enqueue. -/
def legalSchedule (t1 t2 tr : List PipeEvent) : Prop :=
  Interleaves t1 t2 tr ∧ channelCausalGo [] tr = true

/-- Boolean check that some occurrence of `a` is followed strictly later
by an occurrence of `b`. -/
def decBefore {α : Type} [DecidableEq α] (a b : α) : List α → Bool
  | [] => false
  | x :: xs => (decide (x = a) && xs.contains b) || decBefore a b xs

/-- `a` occurs strictly before some later occurrence of `b`. -/
def occursBefore {α : Type} (a b : α) (tr : List α) : Prop :=
  ∃ i j : Nat, i < j ∧ tr[i]? = some a ∧ tr[j]? = some b

/-- The T1 trace of the genesis iteration: the epoch store of the
genesis branch has `last_epoch = None` and is persisted inline. -/
def t1GenesisTrace : List PipeEvent :=
  t1IterationEvents 0 (some (genesisEpochStore wSystemState))

/-- The T2 trace consuming the genesis checkpoint. -/
def t2GenesisTrace : List PipeEvent := t2IterationEvents 0

/-- A legal schedule in which T2 dequeues and persists checkpoint 0
between T1's enqueue and T1's inline epoch persist. -/
def racyTrace : List PipeEvent :=
  [PipeEvent.sendCkpt 0, PipeEvent.recvCkpt 0, PipeEvent.persistCheckpoint 0,
   PipeEvent.persistEpoch, PipeEvent.processEvents 0]

/-- A transaction for the grouping witness. -/
def wTransaction : CheckpointTransactionBlockResponse :=
  { digest := 5
    sender := 9
    effects :=
      { created := [], mutated := [], unwrapped := [], deleted := []
        wrapped := [], unwrapped_then_deleted := [], transaction_digest := 5 }
    events := [] }

/-- An object attributed to transaction 5. -/
def wAttributedObject : SuiObjectData :=
  { object_id := 21, version := 1, previous_transaction := some 5
    bcs := none }

/-- An object carrying no `previous_transaction`. -/
def wUnattributedObject : SuiObjectData :=
  { object_id := 22, version := 1, previous_transaction := none
    bcs := none }

/-- The changed objects for the grouping witness. -/
def wChangedObjects : List (ObjectStatus × SuiObjectData) :=
  [(ObjectStatus.Created, wAttributedObject),
   (ObjectStatus.Mutated, wUnattributedObject)]

/-- The DB row the grouping produces for the attributed object. -/
def wAttributedRow : DBObject :=
  { epoch := boundaryData.checkpoint.epoch
    checkpoint := some boundaryData.checkpoint.sequence_number
    status := ObjectStatus.Created
    data := wAttributedObject }

/-- The per-transaction changes the grouping produces for
`wTransaction`. -/
def wTransactionObjectChanges : TransactionObjectChanges :=
  { changed_objects := [wAttributedRow]
    deleted_objects := [] }

/-- A node whose first `get_checkpoint` attempt fails and whose later
attempts succeed; transaction and object fetches always succeed. -/
def flakyOracle : FullNodeOracle :=
  { getCheckpoint := fun n =>
      if n = 0 then .error ⟨1⟩
      else .ok { epoch := 0, sequence_number := 0, timestamp_ms := 0,
                 transactions := [], end_of_epoch_data := none }
    multiGetFullTransactions := fun _ => .ok []
    pastObjects := echoRpc }

/-- Availability of `flakyOracle`: attempt 1 succeeds. -/
def flakyOracleAvailable : ∃ n, (flakyOracle.getCheckpoint n).isOk = true :=
  ⟨1, rfl⟩

/-- A well-formed effects value: created/mutated/unwrapped ids are
disjoint from deleted/wrapped/unwrapped-then-deleted ids. -/
def overlapWitnessEffects : SuiTransactionBlockEffects :=
  { created := [⟨⟨1, 1⟩⟩]
    mutated := [⟨⟨2, 4⟩⟩]
    unwrapped := []
    deleted := [⟨3, 2⟩]
    wrapped := []
    unwrapped_then_deleted := [⟨4, 9⟩]
    transaction_digest := 7 }

/-- A degenerate effects value whose `created` and `deleted` lists share
the object id `1`: nothing in the effects type prevents this. -/
def overlapEffects : SuiTransactionBlockEffects :=
  { created := [⟨⟨1, 1⟩⟩]
    mutated := []
    unwrapped := []
    deleted := [⟨1, 1⟩]
    wrapped := []
    unwrapped_then_deleted := []
    transaction_digest := 7 }

end SuiIndexer

namespace SuiIndexer

/-- **C4.** For every effects value, `get_object_changes` returns exactly
the (id, version, status) tuples of `created()`, then `mutated()`, then
`unwrapped()`, concatenated in that order, and `get_deleted_db_objects`
returns exactly the `DeletedObject` rows of `deleted()`, then `wrapped()`,
then `unwrapped_then_deleted()`, concatenated in that order. -/
theorem get_object_changes_and_deleted_order
    (effects : SuiTransactionBlockEffects) (epoch : Nat)
    (checkpoint : Option Nat) :
    get_object_changes effects = object_changes_spec effects ∧
    get_deleted_db_objects effects epoch checkpoint
      = deleted_objects_spec effects epoch checkpoint := by
  constructor
  · rfl
  · simp [get_deleted_db_objects, deleted_objects_spec, Function.comp_def]

/-- The ids returned by `get_object_changes` are exactly the ids the
effects list as created, mutated or unwrapped. -/
theorem changedIds_eq_presentIds (effects : SuiTransactionBlockEffects) :
    changedIds effects = presentIds effects := by
  simp [changedIds, get_object_changes, presentIds, Function.comp_def]

/-- The ids returned by `get_deleted_db_objects` are exactly the ids the
effects list as deleted, wrapped or unwrapped-then-deleted. -/
theorem deletedIds_eq_absentIds (effects : SuiTransactionBlockEffects)
    (epoch : Nat) (checkpoint : Option Nat) :
    deletedIds effects epoch checkpoint = absentIds effects := by
  simp [deletedIds, get_deleted_db_objects, absentIds, Function.comp_def]

/-- **C3, counterexample.** The claim "for every transaction effects
value, the id sets of `get_object_changes` and `get_deleted_db_objects`
are disjoint" is false: an effects value listing the same id as both
created and deleted yields the id on both sides. -/
theorem changed_deleted_not_disjoint_counterexample :
    1 ∈ changedIds overlapEffects ∧ 1 ∈ deletedIds overlapEffects 0 none := by
  decide

/-- **C3, amended.** For every effects value whose "present after" id
lists (created, mutated, unwrapped) share no id with its "absent after"
id lists (deleted, wrapped, unwrapped-then-deleted) — true of any effects
produced by an actual execution — the ids of `get_object_changes` and of
`get_deleted_db_objects` are disjoint, and their concatenation is exactly
the effects' object-mutation footprint. -/
theorem changed_deleted_partition (effects : SuiTransactionBlockEffects)
    (epoch : Nat) (checkpoint : Option Nat)
    (h : ∀ i ∈ presentIds effects, i ∉ absentIds effects) :
    (∀ i ∈ changedIds effects, i ∉ deletedIds effects epoch checkpoint) ∧
    (∀ i ∈ deletedIds effects epoch checkpoint, i ∉ changedIds effects) ∧
    changedIds effects ++ deletedIds effects epoch checkpoint
      = footprintIds effects := by
  rw [changedIds_eq_presentIds, deletedIds_eq_absentIds]
  refine ⟨h, fun i hi hic => h i hic hi, ?_⟩
  simp [presentIds, absentIds, footprintIds]

/-- `wrapS64` is the identity on the `i64` range. -/
theorem wrapS64_eq_of_mem (x : Int) (h0 : -2 ^ 63 ≤ x) (h1 : x < 2 ^ 63) :
    wrapS64 x = x := by
  unfold wrapS64
  omega

/-- As long as the signed cursor does not overflow, the cursor before
iteration `k` is `last_seq_from_db + 1 + k`. -/
theorem cursorAt_eq (last_seq_from_db : Int) (k : Nat)
    (h0 : -2 ^ 63 ≤ last_seq_from_db + 1)
    (h1 : last_seq_from_db + 1 + k < 2 ^ 63) :
    cursorAt last_seq_from_db k = last_seq_from_db + 1 + k := by
  induction k with
  | zero =>
      simpa [cursorAt] using wrapS64_eq_of_mem _ h0 (by push_cast at h1 ⊢; omega)
  | succ k ih =>
      have hk : last_seq_from_db + 1 + k < 2 ^ 63 := by push_cast at h1 ⊢; omega
      rw [cursorAt, ih hk,
        wrapS64_eq_of_mem _ (by push_cast at h1 ⊢; omega) (by push_cast at h1 ⊢; omega)]
      push_cast
      ring

/-- For a nonnegative non-overflowing cursor, the `as u64` cast is exact. -/
theorem requestedSeqAt_eq (last_seq_from_db : Int) (k : Nat)
    (h0 : 0 ≤ last_seq_from_db + 1)
    (h1 : last_seq_from_db + 1 + k < 2 ^ 63) :
    (requestedSeqAt last_seq_from_db k : Int) = last_seq_from_db + 1 + k := by
  rw [requestedSeqAt, cursorAt_eq last_seq_from_db k (by omega) h1, i64ToU64]
  have hnn : (0 : Int) ≤ last_seq_from_db + 1 + k := by positivity
  rw [Int.emod_eq_of_lt hnn (by push_cast at h1 ⊢; omega)]
  omega

/-- **C6.** The download task derives its cursor as
`get_latest_checkpoint_sequence_number() + 1` in signed arithmetic: with
`last_seq_from_db = -1` (empty store) the first request is for sequence
0, with `last_seq_from_db = 42` the first request is for sequence 43 and
no iteration requests any sequence in `0..=42`, and each successful
iteration advances the requested sequence by exactly 1. -/
theorem download_cursor (k : Nat) (hk : (k : Int) + 44 < 2 ^ 63) :
    requestedSeqAt (-1) 0 = 0 ∧
    requestedSeqAt 42 0 = 43 ∧
    requestedSeqAt 42 k = 43 + k ∧
    (∀ j, j ≤ 42 → requestedSeqAt 42 k ≠ j) ∧
    requestedSeqAt (-1) k = k ∧
    requestedSeqAt (-1) (k + 1) = requestedSeqAt (-1) k + 1 := by
  have h42 : ∀ m : Nat, (m : Int) + 44 < 2 ^ 63 →
      requestedSeqAt 42 m = 43 + m := by
    intro m hm
    have := requestedSeqAt_eq 42 m (by omega) (by omega)
    omega
  have hm1 : ∀ m : Nat, (m : Int) < 2 ^ 63 → requestedSeqAt (-1) m = m := by
    intro m hm
    have := requestedSeqAt_eq (-1) m (by omega) (by omega)
    omega
  refine ⟨hm1 0 (by omega), h42 0 (by omega), h42 k hk, ?_, ?_, ?_⟩
  · intro j hj
    rw [h42 k hk]
    omega
  · exact hm1 k (by omega)
  · rw [hm1 k (by omega), hm1 (k + 1) (by push_cast; omega)]

/-- The chunk lengths of `chunksOf` depend only on the input length. -/
theorem chunksOf_map_length (c : Nat) (l : List α) :
    (chunksOf c l).map List.length = lengthChunks c l.length := by
  induction l using chunksOf.induct c with
  | case1 => rw [chunksOf]; simp [lengthChunks]
  | case2 x xs ih =>
      rw [chunksOf, List.map_cons, ih]
      simp only [List.length_cons, List.length_take, List.length_drop]
      rw [lengthChunks, Nat.add_comm 1 (min (c - 1) xs.length)]

/-- Every chunk produced by `chunksOf c` (with `1 ≤ c`) has length at
most `c`. -/
theorem lengthChunks_le (c : Nat) (hc : 1 ≤ c) :
    ∀ n, ∀ m ∈ lengthChunks c n, m ≤ c := by
  intro n
  induction n using Nat.strong_induction_on with
  | _ n ih =>
    match n with
    | 0 => simp [lengthChunks]
    | k + 1 =>
      intro m hm
      rw [lengthChunks] at hm
      rcases List.mem_cons.mp hm with h | h
      · subst h; omega
      · exact ih (k - (c - 1)) (by omega) m h

/-- A list of length `n` splits into `⌈n / 500⌉` chunks of 500. -/
theorem lengthChunks_count (n : Nat) :
    (lengthChunks 500 n).length = (n + 499) / 500 := by
  induction n using Nat.strong_induction_on with
  | _ n ih =>
    match n with
    | 0 => simp [lengthChunks]
    | k + 1 =>
      rw [lengthChunks]
      simp only [List.length_cons]
      rw [ih (k - 499) (by omega)]
      omega

/-- A list of length 1300 splits into chunks of sizes 500, 500, 300. -/
theorem lengthChunks_1300 : lengthChunks 500 1300 = [500, 500, 300] := by
  have h0 : lengthChunks 500 0 = [] := by rw [lengthChunks]
  have h300 : lengthChunks 500 300 = [300] := by
    rw [show (300 : Nat) = 299 + 1 from rfl, lengthChunks]
    norm_num [h0]
  have h800 : lengthChunks 500 800 = [500, 300] := by
    rw [show (800 : Nat) = 799 + 1 from rfl, lengthChunks]
    norm_num [h300]
  rw [show (1300 : Nat) = 1299 + 1 from rfl, lengthChunks]
  norm_num [h800]

/-- Binding a success in the `Except` monad applies the continuation. -/
theorem exceptBind_ok {ε α β : Type} (a : α) (f : α → Except ε β) :
    (Except.ok a >>= f) = f a := rfl

/-- `pure` in the `Except` monad is `Except.ok`. -/
theorem exceptPure_eq_ok {ε α : Type} (a : α) :
    (pure a : Except ε α) = Except.ok a := rfl

/-- Folding `into_object` over responses that all carry found objects
reconstructs the objects in order. -/
theorem intoObject_foldlM_ok {β : Type} (g : β → SuiObjectData)
    (l : List β) :
    ∀ acc : List SuiObjectData,
    (l.map fun b => SuiPastObjectResponse.versionFound (g b)).foldlM
      (fun acc2 resp => do
        let object_data ← intoObject resp
        pure (acc2 ++ [object_data])) acc
      = Except.ok (acc ++ l.map g) := by
  induction l with
  | nil => intro acc; simp [List.foldlM_nil]; rfl
  | cons b l ih =>
      intro acc
      have ih2 := ih (acc ++ [g b])
      simp only [List.map_cons, List.foldlM_cons]
      simp only [intoObject, exceptBind_ok, exceptPure_eq_ok] at ih2 ⊢
      rw [ih2]
      simp

/-- When the node answers one found object per request, one chunk step
appends exactly the chunk's statuses paired with the node's objects. -/
theorem fetchChunkStep_ok (f : SuiGetPastObjectRequest → SuiObjectData)
    (rpc : List SuiGetPastObjectRequest → Except SdkError (List SuiPastObjectResponse))
    (hrpc : ∀ reqs, rpc reqs
      = .ok (reqs.map fun r => .versionFound (f r)))
    (acc : List (ObjectStatus × SuiObjectData))
    (objects : List (Nat × Nat × ObjectStatus)) :
    fetchChunkStep rpc acc objects
      = .ok (acc ++ objects.map fun x => (x.2.2, f ⟨x.1, x.2.1⟩)) := by
  unfold fetchChunkStep
  dsimp only
  rw [hrpc, exceptBind_ok, intoObject_foldlM_ok f, exceptBind_ok,
    exceptPure_eq_ok, List.nil_append, List.map_map, List.zip_map']
  simp [Function.comp_def]

/-- Folding `fetchChunkStep` over all chunks concatenates the per-chunk
results in input order. -/
theorem fetch_foldlM_ok (f : SuiGetPastObjectRequest → SuiObjectData)
    (rpc : List SuiGetPastObjectRequest → Except SdkError (List SuiPastObjectResponse))
    (hrpc : ∀ reqs, rpc reqs
      = .ok (reqs.map fun r => .versionFound (f r)))
    (l : List (Nat × Nat × ObjectStatus)) :
    ∀ acc,
    (chunksOf MULTI_GET_CHUNK_SIZE l).foldlM (fetchChunkStep rpc) acc
      = Except.ok (acc ++ l.map fun x => (x.2.2, f ⟨x.1, x.2.1⟩)) := by
  induction l using chunksOf.induct MULTI_GET_CHUNK_SIZE with
  | case1 => intro acc; rw [chunksOf]; simp [List.foldlM_nil]; rfl
  | case2 x xs ih =>
      intro acc
      rw [chunksOf, List.foldlM_cons, fetchChunkStep_ok f rpc hrpc,
        exceptBind_ok, ih, List.append_assoc, ← List.map_append,
        List.cons_append, List.take_append_drop]

/-- **C7.** For every list of `n` object changes, `fetch_changed_objects`
splits it into `⌈n / 500⌉` chunks of at most 500 requests each (for
`n = 1300`: sizes 500, 500, 300), issues one `try_multi_get_past_objects`
call per chunk, and — when the node answers each request with its found
object — returns the concatenation over chunks of (status, object) pairs
in which the i-th returned object of a chunk is paired with the status of
the i-th request of that chunk; the result has length `n` and preserves
positional status alignment. -/
theorem fetch_changed_objects_chunking
    (f : SuiGetPastObjectRequest → SuiObjectData)
    (rpc : List SuiGetPastObjectRequest → Except SdkError (List SuiPastObjectResponse))
    (hrpc : ∀ reqs, rpc reqs
      = .ok (reqs.map fun r => .versionFound (f r)))
    (object_changes : List (Nat × Nat × ObjectStatus)) :
    fetch_changed_objects rpc object_changes
      = .ok (object_changes.map fun x => (x.2.2, f ⟨x.1, x.2.1⟩)) ∧
    (object_changes.map fun x => (x.2.2, f ⟨x.1, x.2.1⟩)).length
      = object_changes.length ∧
    (chunksOf MULTI_GET_CHUNK_SIZE object_changes).length
      = (object_changes.length + 499) / 500 ∧
    (∀ ch ∈ chunksOf MULTI_GET_CHUNK_SIZE object_changes, ch.length ≤ 500) ∧
    (object_changes.length = 1300 →
      (chunksOf MULTI_GET_CHUNK_SIZE object_changes).map List.length
        = [500, 500, 300]) := by
  refine ⟨?_, by simp, ?_, ?_, ?_⟩
  · unfold fetch_changed_objects
    rw [fetch_foldlM_ok f rpc hrpc object_changes []]
    rfl
  · have h := congrArg List.length
      (chunksOf_map_length MULTI_GET_CHUNK_SIZE object_changes)
    rw [List.length_map] at h
    rw [h]
    show (lengthChunks 500 object_changes.length).length = _
    exact lengthChunks_count _
  · intro ch hch
    have hm : ch.length ∈ (chunksOf MULTI_GET_CHUNK_SIZE object_changes).map
        List.length := List.mem_map_of_mem List.length hch
    rw [chunksOf_map_length] at hm
    exact lengthChunks_le MULTI_GET_CHUNK_SIZE
      (by norm_num [MULTI_GET_CHUNK_SIZE]) _ _ hm
  · intro h
    rw [chunksOf_map_length, h]
    show lengthChunks 500 1300 = _
    exact lengthChunks_1300

/-- Witness for `fetch_changed_objects_chunking`: an echoing node and a
two-element change list. -/
theorem fetch_changed_objects_chunking_witness :
    fetch_changed_objects echoRpc witnessChanges
      = .ok (witnessChanges.map fun x => (x.2.2, echoObject ⟨x.1, x.2.1⟩)) ∧
    (witnessChanges.map fun x => (x.2.2, echoObject ⟨x.1, x.2.1⟩)).length
      = witnessChanges.length ∧
    (chunksOf MULTI_GET_CHUNK_SIZE witnessChanges).length
      = (witnessChanges.length + 499) / 500 ∧
    (∀ ch ∈ chunksOf MULTI_GET_CHUNK_SIZE witnessChanges, ch.length ≤ 500) ∧
    (witnessChanges.length = 1300 →
      (chunksOf MULTI_GET_CHUNK_SIZE witnessChanges).map List.length
        = [500, 500, 300]) :=
  fetch_changed_objects_chunking echoObject echoRpc (fun _ => rfl)
    witnessChanges

/-- Binding a failure in the `Except` monad short-circuits. -/
theorem exceptBind_err {ε α β : Type} (e : ε) (f : α → Except ε β) :
    (Except.error e >>= f) = Except.error e := rfl

/-- **C5.** `download_checkpoint_data` never returns an error caused by
`get_checkpoint`: every failed `get_checkpoint` attempt is followed by a
100 ms sleep and a retry, until the first success, whose checkpoint is
used; any error the call returns is the error of the subsequent chunked
transaction fetch or of the past-object fetch, propagated without an
inner retry. -/
theorem download_retry_and_propagation (oracle : FullNodeOracle)
    (h : ∃ n, (oracle.getCheckpoint n).isOk = true) :
    (∀ m, m < firstOkAttempt oracle h →
      (oracle.getCheckpoint m).isOk = false) ∧
    (oracle.getCheckpoint (firstOkAttempt oracle h)).isOk = true ∧
    RPC_AVAILABILITY_POLL_INTERVAL_MS = 100 ∧
    (∀ e, download_checkpoint_data oracle h = .error e →
      downloadTransactions oracle (awaitedCheckpoint oracle h) = .error e ∨
      ∃ txs, downloadTransactions oracle (awaitedCheckpoint oracle h) = .ok txs ∧
        fetch_changed_objects oracle.pastObjects (objectChangesOf txs)
          = .error e) := by
  refine ⟨?_, Nat.find_spec h, rfl, ?_⟩
  · intro m hm
    have hmin := Nat.find_min h hm
    simpa using hmin
  · intro e he
    unfold download_checkpoint_data at he
    dsimp only at he
    cases hdt : downloadTransactions oracle (awaitedCheckpoint oracle h) with
    | error e2 =>
        rw [hdt, exceptBind_err] at he
        exact Or.inl (by rw [Except.error.inj he])
    | ok txs =>
        right
        rw [hdt, exceptBind_ok] at he
        cases hfc : fetch_changed_objects oracle.pastObjects
            (objectChangesOf txs) with
        | error e2 =>
            rw [hfc, exceptBind_err] at he
            exact ⟨txs, rfl, by rw [hfc, Except.error.inj he]⟩
        | ok objs =>
            rw [hfc, exceptBind_ok] at he
            exact absurd he (by simp [exceptPure_eq_ok])

/-- Witness for `download_retry_and_propagation`: a node whose first
`get_checkpoint` attempt fails and whose second succeeds. -/
theorem download_retry_and_propagation_witness :
    (∀ m, m < firstOkAttempt flakyOracle flakyOracleAvailable →
      (flakyOracle.getCheckpoint m).isOk = false) ∧
    (flakyOracle.getCheckpoint
      (firstOkAttempt flakyOracle flakyOracleAvailable)).isOk = true ∧
    RPC_AVAILABILITY_POLL_INTERVAL_MS = 100 ∧
    (∀ e, download_checkpoint_data flakyOracle flakyOracleAvailable
        = .error e →
      downloadTransactions flakyOracle
          (awaitedCheckpoint flakyOracle flakyOracleAvailable) = .error e ∨
      ∃ txs, downloadTransactions flakyOracle
          (awaitedCheckpoint flakyOracle flakyOracleAvailable) = .ok txs ∧
        fetch_changed_objects flakyOracle.pastObjects (objectChangesOf txs)
          = .error e) :=
  download_retry_and_propagation flakyOracle flakyOracleAvailable

/-- The `as i64` cast is exact below `2^63`. -/
theorem u64ToS64_eq_of_lt (n : Nat) (h : n < 2 ^ 63) : u64ToS64 n = n := by
  unfold u64ToS64
  exact wrapS64_eq_of_mem _ (by omega) (by exact_mod_cast h)

/-- Inversion of `index_epoch`: a returned epoch store comes either from
the genesis branch or from the boundary branch. -/
theorem index_epoch_inversion
    (gss : CheckpointData → Except IndexerError SuiSystemStateSummary)
    (dec : List Nat → Except IndexerError SystemEpochInfoEvent)
    (data : CheckpointData) (ep : TemporaryEpochStore)
    (h : index_epoch gss dec data = .ok (some ep)) :
    ((data.checkpoint.epoch = 0 ∧ data.checkpoint.sequence_number = 0) ∧
      ∃ ss, gss data = .ok ss ∧ ep = genesisEpochStore ss) ∨
    (¬(data.checkpoint.epoch = 0 ∧ data.checkpoint.sequence_number = 0) ∧
      ∃ eoe ss event, data.checkpoint.end_of_epoch_data = some eoe ∧
        gss data = .ok ss ∧
        ep = boundaryEpochStore data.checkpoint eoe ss event) := by
  unfold index_epoch at h
  dsimp only at h
  by_cases hgen : data.checkpoint.epoch = 0 ∧ data.checkpoint.sequence_number = 0
  · rw [if_pos hgen] at h
    cases hss : gss data with
    | error e => rw [hss, exceptBind_err] at h; exact absurd h (by simp)
    | ok ss =>
        rw [hss, exceptBind_ok, exceptPure_eq_ok] at h
        exact Or.inl ⟨hgen, ss, rfl,
          (Option.some.inj (Except.ok.inj h)).symm⟩
  · rw [if_neg hgen] at h
    cases heoe : data.checkpoint.end_of_epoch_data with
    | none =>
        rw [heoe] at h
        exact absurd h (by simp [exceptPure_eq_ok])
    | some eoe =>
        rw [heoe] at h
        dsimp only at h
        cases hss : gss data with
        | error e => rw [hss, exceptBind_err] at h; exact absurd h (by simp)
        | ok ss =>
            rw [hss, exceptBind_ok] at h
            cases hev : transposeOptExcept
                ((data.transactions.findSome? fun tx =>
                  tx.events.find? isEpochEvent).map
                  fun e => dec e.bcs) with
            | error e => rw [hev, exceptBind_err] at h; exact absurd h (by simp)
            | ok event =>
                rw [hev, exceptBind_ok, exceptPure_eq_ok] at h
                exact Or.inr ⟨hgen, eoe, ss, event, rfl, rfl,
                  (Option.some.inj (Except.ok.inj h)).symm⟩

/-- **C2.** Whenever `index_epoch` (the epoch component of
`index_checkpoint`) returns an epoch store, its `last_epoch` is `none`
if and only if the checkpoint is genesis (`epoch == 0` and
`sequence_number == 0`); in every other case (the store then comes from
the `end_of_epoch_data` branch) `last_epoch` is `Some`. -/
theorem epoch_last_epoch_iff_genesis
    (gss : CheckpointData → Except IndexerError SuiSystemStateSummary)
    (dec : List Nat → Except IndexerError SystemEpochInfoEvent)
    (data : CheckpointData) (ep : TemporaryEpochStore)
    (h : index_epoch gss dec data = .ok (some ep)) :
    ep.last_epoch = none ↔
      data.checkpoint.epoch = 0 ∧ data.checkpoint.sequence_number = 0 := by
  rcases index_epoch_inversion gss dec data ep h with
    ⟨hgen, ss, _, hep⟩ | ⟨hgen, eoe, ss, event, _, _, hep⟩
  · subst hep; simp [genesisEpochStore, hgen]
  · subst hep; simp [boundaryEpochStore, hgen]

/-- Witness for `epoch_last_epoch_iff_genesis` at the concrete boundary
bundle. -/
theorem epoch_last_epoch_iff_genesis_witness :
    wBoundaryStore.last_epoch = none ↔
      boundaryData.checkpoint.epoch = 0 ∧
      boundaryData.checkpoint.sequence_number = 0 :=
  epoch_last_epoch_iff_genesis wGetSystemState wDecodeEpochEvent
    boundaryData wBoundaryStore (by rfl)

/-- **C8.** For every non-genesis boundary checkpoint (with
`end_of_epoch_data` present) of sequence number `N`, the epoch store
produced by the epoch branch of `index_checkpoint` satisfies
`new_epoch.epoch = system_state.epoch`,
`new_epoch.first_checkpoint_id = N + 1`,
`last_epoch.epoch = new_epoch.epoch - 1`,
`last_epoch.last_checkpoint_id = Some N` and
`last_epoch.epoch_end_timestamp = Some timestamp_ms` (all values fitting
in `i64`). -/
theorem epoch_boundary_fields
    (gss : CheckpointData → Except IndexerError SuiSystemStateSummary)
    (dec : List Nat → Except IndexerError SystemEpochInfoEvent)
    (data : CheckpointData) (ep : TemporaryEpochStore)
    (eoe : EndOfEpochData) (ss : SuiSystemStateSummary) (le : DBEpochInfo)
    (hgen : ¬(data.checkpoint.epoch = 0 ∧ data.checkpoint.sequence_number = 0))
    (heoe : data.checkpoint.end_of_epoch_data = some eoe)
    (hss : gss data = .ok ss)
    (h : index_epoch gss dec data = .ok (some ep))
    (hle : ep.last_epoch = some le)
    (hfe : ss.epoch < 2 ^ 63)
    (hfs : data.checkpoint.sequence_number + 1 < 2 ^ 63)
    (hft : data.checkpoint.timestamp_ms < 2 ^ 63) :
    ep.new_epoch.epoch = (ss.epoch : Int) ∧
    ep.new_epoch.first_checkpoint_id
      = (data.checkpoint.sequence_number : Int) + 1 ∧
    le.epoch = ep.new_epoch.epoch - 1 ∧
    le.last_checkpoint_id = some ((data.checkpoint.sequence_number : Int)) ∧
    le.epoch_end_timestamp = some ((data.checkpoint.timestamp_ms : Int)) := by
  rcases index_epoch_inversion gss dec data ep h with
    ⟨hgen2, _, _, _⟩ | ⟨_, eoe2, ss2, event, heoe2, hss2, hep⟩
  · exact absurd hgen2 hgen
  · have hss2b : ss2 = ss := Except.ok.inj (hss2.symm.trans hss)
    subst hss2b
    subst hep
    simp only [boundaryEpochStore, Option.some.injEq] at hle
    subst hle
    have hseq : u64ToS64 data.checkpoint.sequence_number
        = (data.checkpoint.sequence_number : Int) :=
      u64ToS64_eq_of_lt _ (by omega)
    have hepo : u64ToS64 ss2.epoch = (ss2.epoch : Int) :=
      u64ToS64_eq_of_lt _ hfe
    refine ⟨?_, ?_, ?_, ?_, ?_⟩
    · simp [boundaryEpochStore, newEpochRow, hepo]
    · simp only [boundaryEpochStore, newEpochRow]
      rw [hseq, wrapS64_eq_of_mem _ (by omega) (by push_cast; omega)]
    · simp only [boundaryEpochStore, newEpochRow, lastEpochRow]
      rw [hepo, wrapS64_eq_of_mem _ (by push_cast; omega) (by push_cast; omega)]
    · simp [lastEpochRow, hseq]
    · simp [lastEpochRow, u64ToS64_eq_of_lt _ hft]

/-- Witness for `epoch_boundary_fields` at the concrete boundary
bundle. -/
theorem epoch_boundary_fields_witness :
    wBoundaryStore.new_epoch.epoch = (wSystemState.epoch : Int) ∧
    wBoundaryStore.new_epoch.first_checkpoint_id
      = (boundaryData.checkpoint.sequence_number : Int) + 1 ∧
    (lastEpochRow boundaryData.checkpoint wEndOfEpochData wSystemState
        none).epoch = wBoundaryStore.new_epoch.epoch - 1 ∧
    (lastEpochRow boundaryData.checkpoint wEndOfEpochData wSystemState
        none).last_checkpoint_id
      = some ((boundaryData.checkpoint.sequence_number : Int)) ∧
    (lastEpochRow boundaryData.checkpoint wEndOfEpochData wSystemState
        none).epoch_end_timestamp
      = some ((boundaryData.checkpoint.timestamp_ms : Int)) :=
  epoch_boundary_fields wGetSystemState wDecodeEpochEvent boundaryData
    wBoundaryStore wEndOfEpochData wSystemState
    (lastEpochRow boundaryData.checkpoint wEndOfEpochData wSystemState none)
    (by decide) (by rfl) (by rfl) (by rfl) (by rfl)
    (by norm_num [wSystemState]) (by norm_num [boundaryData])
    (by norm_num [boundaryData])

/-- The package map is unbuildable (the `expect` fires) exactly when
some changed object has no raw bytes. -/
theorem packageObjectMap_eq_none_iff (l : List (ObjectStatus × SuiObjectData)) :
    packageObjectMap l = none ↔ ∃ so ∈ l, (so.2).bcs = none := by
  induction l with
  | nil => simp [packageObjectMap]
  | cons so rest ih =>
      obtain ⟨st, o⟩ := so
      cases hb : o.bcs with
      | none => simp [packageObjectMap, hb]
      | some raw =>
          cases raw with
          | package p =>
              simp [packageObjectMap, hb, ih, Option.map_eq_none']
          | moveObject bytes =>
              simp [packageObjectMap, hb, ih]

/-- **C9.** `index_packages` panics (modelled by `none`) exactly when
some entry of `changed_objects` carries `bcs = None`: the `expect` fires
instead of an `IndexerError` being returned, so a missing raw-bytes
field aborts the process rather than surfacing as a recoverable error;
with all `bcs` fields present the function returns a value (`some`). -/
theorem index_packages_panics_iff_missing_bcs
    (tryFrom : Nat → List Nat → Except IndexerError Package)
    (transactions : List CheckpointTransactionBlockResponse)
    (changed_objects : List (ObjectStatus × SuiObjectData)) :
    index_packages tryFrom transactions changed_objects = none ↔
      ∃ so ∈ changed_objects, (so.2).bcs = none := by
  rw [← packageObjectMap_eq_none_iff]
  unfold index_packages
  cases hm : packageObjectMap changed_objects with
  | none => simp
  | some m => simp

/-- The grouping fold evaluated at a digest is the sublist of changed
objects attributed to that digest, in input order. -/
theorem tx_objects_go (l : List (ObjectStatus × SuiObjectData)) :
    ∀ (acc : Nat → List (ObjectStatus × SuiObjectData)) (d : Nat),
    (l.foldl
      (fun acc so =>
        match so.2.previous_transaction with
        | some digest => fun d => if d = digest then acc d ++ [so] else acc d
        | none => acc) acc) d
      = acc d ++ l.filter fun so => so.2.previous_transaction == some d := by
  induction l with
  | nil => intro acc d; simp
  | cons so rest ih =>
      intro acc d
      simp only [List.foldl_cons]
      cases hp : so.2.previous_transaction with
      | none =>
          dsimp only
          rw [ih, List.filter_cons]
          simp [hp]
      | some digest =>
          dsimp only
          rw [ih, List.filter_cons]
          by_cases hd : d = digest
          · subst hd
            simp [hp, List.append_assoc]
          · simp [hp, hd, Ne.symm hd]

/-- The group of a digest is the filter of the changed objects by that
`previous_transaction` digest. -/
theorem tx_objects_eq_filter
    (changed_objects : List (ObjectStatus × SuiObjectData)) (d : Nat) :
    tx_objects changed_objects d
      = changed_objects.filter fun so => so.2.previous_transaction == some d := by
  unfold tx_objects
  rw [tx_objects_go]
  simp

/-- **C10.** In the object grouping of `index_checkpoint`, every entry of
`changed_objects` whose data has `previous_transaction = None` is
silently excluded: it appears in no `TransactionObjectChanges`
changed-objects list, and every row that does appear is attributed to a
transaction of the checkpoint whose digest matches the row's
`previous_transaction`. -/
theorem grouping_excludes_unattributed
    (checkpoint : Checkpoint)
    (transactions : List CheckpointTransactionBlockResponse)
    (changed_objects : List (ObjectStatus × SuiObjectData))
    (st : ObjectStatus) (o : SuiObjectData)
    (hmem : (st, o) ∈ changed_objects)
    (hnone : o.previous_transaction = none) :
    ∀ toc ∈ objects_changes checkpoint transactions changed_objects,
      ∀ dbo ∈ toc.changed_objects,
        dbo.data ≠ o ∧
        ∃ tx ∈ transactions,
          dbo.data.previous_transaction = some tx.digest ∧
          (dbo.status, dbo.data) ∈ changed_objects := by
  intro toc htoc dbo hdbo
  unfold objects_changes at htoc
  rcases List.mem_map.mp htoc with ⟨tx, htx, rfl⟩
  dsimp only at hdbo
  rcases List.mem_map.mp hdbo with ⟨so, hso, rfl⟩
  rw [tx_objects_eq_filter] at hso
  have hmemf := List.mem_filter.mp hso
  have hp : so.2.previous_transaction = some tx.digest := by
    have h2 := hmemf.2
    simpa using h2
  refine ⟨?_, tx, htx, ?_, ?_⟩
  · intro hcontra
    dsimp only at hcontra
    rw [hcontra, hnone] at hp
    exact Option.noConfusion hp
  · exact hp
  · have h1 := hmemf.1
    simpa using h1

/-- Witness for `grouping_excludes_unattributed`: one attributed and one
unattributed changed object, one transaction, instantiated at the single
produced group and row. -/
theorem grouping_excludes_unattributed_witness :
    wAttributedRow.data ≠ wUnattributedObject ∧
    ∃ tx ∈ [wTransaction],
      wAttributedRow.data.previous_transaction = some tx.digest ∧
      (wAttributedRow.status, wAttributedRow.data) ∈ wChangedObjects :=
  grouping_excludes_unattributed boundaryData.checkpoint [wTransaction]
    wChangedObjects ObjectStatus.Mutated wUnattributedObject
    (by decide) (by rfl) wTransactionObjectChanges (by decide)
    wAttributedRow (by decide)

/-- Unfolding `occursBefore` over a cons cell. -/
theorem occursBefore_cons {α : Type} (a b x : α) (xs : List α) :
    occursBefore a b (x :: xs) ↔ (x = a ∧ b ∈ xs) ∨ occursBefore a b xs := by
  constructor
  · rintro ⟨i, j, hij, ha, hb⟩
    match i, j with
    | _, 0 => omega
    | 0, j + 1 =>
        left
        refine ⟨by simpa using ha, ?_⟩
        simp only [List.getElem?_cons_succ] at hb
        exact List.getElem?_mem hb
    | i + 1, j + 1 =>
        right
        exact ⟨i, j, by omega, by simpa using ha, by simpa using hb⟩
  · rintro (⟨rfl, hbmem⟩ | ⟨i, j, hij, ha, hb⟩)
    · obtain ⟨j, hbj⟩ := List.getElem?_of_mem hbmem
      exact ⟨0, j + 1, by omega, List.getElem?_cons_zero, by simpa using hbj⟩
    · exact ⟨i + 1, j + 1, by omega, by simpa using ha, by simpa using hb⟩

/-- `occursBefore` is decided by `decBefore`. -/
theorem occursBefore_iff_decBefore {α : Type} [DecidableEq α]
    (a b : α) (tr : List α) :
    occursBefore a b tr ↔ decBefore a b tr = true := by
  induction tr with
  | nil =>
      simp only [decBefore]
      constructor
      · rintro ⟨i, j, hij, ha, hb⟩
        simp at ha
      · intro h
        exact absurd h (by simp)
  | cons x xs ih =>
      rw [occursBefore_cons, decBefore]
      simp [ih, List.elem_iff]

/-- An interleaving contains the first task's trace as a sublist. -/
theorem Interleaves.sublist_left {α : Type} {xs ys zs : List α}
    (h : Interleaves xs ys zs) : xs.Sublist zs := by
  induction h with
  | nil => exact List.Sublist.refl []
  | left h ih => exact ih.cons₂ _
  | right h ih => exact ih.cons _

/-- A two-element sublist yields an ordered pair of occurrences. -/
theorem occursBefore_of_sublist_pair {α : Type} {a b : α} :
    ∀ {tr : List α}, List.Sublist [a, b] tr → occursBefore a b tr := by
  intro tr
  induction tr with
  | nil => intro h; exact absurd h (by simp)
  | cons x xs ih =>
      intro h
      cases h with
      | cons _ h2 =>
          rw [occursBefore_cons]
          exact Or.inr (ih h2)
      | cons₂ _ h2 =>
          rw [occursBefore_cons]
          exact Or.inl ⟨rfl, h2.subset (by simp)⟩

/-- **C1, counterexample.** The claim that for a genesis checkpoint the
inline `persist_epoch` completes before `persist_checkpoint` is invoked
for sequence 0 is false: T1 enqueues the checkpoint on Q_ckpt *before*
persisting the epoch inline, so a legal schedule exists in which T2
dequeues and persists checkpoint 0 before the epoch persist happens. -/
theorem genesis_epoch_commit_race_counterexample :
    legalSchedule t1GenesisTrace t2GenesisTrace racyTrace ∧
    ¬ occursBefore PipeEvent.persistEpoch (PipeEvent.persistCheckpoint 0)
      racyTrace := by
  refine ⟨⟨?_, by decide⟩, ?_⟩
  · show Interleaves
      [PipeEvent.sendCkpt 0, PipeEvent.persistEpoch, PipeEvent.processEvents 0]
      [PipeEvent.recvCkpt 0, PipeEvent.persistCheckpoint 0]
      [PipeEvent.sendCkpt 0, PipeEvent.recvCkpt 0,
        PipeEvent.persistCheckpoint 0, PipeEvent.persistEpoch,
        PipeEvent.processEvents 0]
    exact .left (.right (.right (.left (.left .nil))))
  · rw [occursBefore_iff_decBefore]
    decide

/-- **C1, amended.** For a genesis checkpoint (indexed epoch store with
`last_epoch = None`), T1 commits the epoch inline via
`store.persist_epoch` and never enqueues it on Q_epoch; in every legal
schedule the enqueue of the checkpoint on Q_ckpt precedes the inline
`persist_epoch`, but no ordering between `persist_epoch` and T2's
`persist_checkpoint` is guaranteed (they may race). -/
theorem genesis_epoch_inline_amended
    (ep : TemporaryEpochStore) (seq : Nat) (tr : List PipeEvent)
    (hgen : ep.last_epoch = none)
    (hleg : legalSchedule (t1IterationEvents seq (some ep))
      (t2IterationEvents seq) tr) :
    PipeEvent.sendEpoch ∉ t1IterationEvents seq (some ep) ∧
    PipeEvent.persistEpoch ∈ t1IterationEvents seq (some ep) ∧
    occursBefore (PipeEvent.sendCkpt seq) PipeEvent.persistEpoch tr := by
  have ht1 : t1IterationEvents seq (some ep)
      = [PipeEvent.sendCkpt seq, PipeEvent.persistEpoch,
         PipeEvent.processEvents seq] := by
    simp [t1IterationEvents, hgen]
  refine ⟨by simp [ht1], by simp [ht1], ?_⟩
  have hsub : List.Sublist [PipeEvent.sendCkpt seq, PipeEvent.persistEpoch]
      (t1IterationEvents seq (some ep)) := by
    rw [ht1]
    exact ((List.nil_sublist _).cons₂ _).cons₂ _
  exact occursBefore_of_sublist_pair (hsub.trans hleg.1.sublist_left)

/-- Witness for `genesis_epoch_inline_amended`: the genesis epoch store
and the racy schedule. -/
theorem genesis_epoch_inline_amended_witness :
    PipeEvent.sendEpoch ∉
      t1IterationEvents 0 (some (genesisEpochStore wSystemState)) ∧
    PipeEvent.persistEpoch ∈
      t1IterationEvents 0 (some (genesisEpochStore wSystemState)) ∧
    occursBefore (PipeEvent.sendCkpt 0) PipeEvent.persistEpoch racyTrace :=
  genesis_epoch_inline_amended (genesisEpochStore wSystemState) 0 racyTrace
    rfl
    ⟨show Interleaves
      [PipeEvent.sendCkpt 0, PipeEvent.persistEpoch, PipeEvent.processEvents 0]
      [PipeEvent.recvCkpt 0, PipeEvent.persistCheckpoint 0]
      [PipeEvent.sendCkpt 0, PipeEvent.recvCkpt 0,
        PipeEvent.persistCheckpoint 0, PipeEvent.persistEpoch,
        PipeEvent.processEvents 0]
      from .left (.right (.right (.left (.left .nil)))), by decide⟩

/-- Witness for `download_cursor` at `k = 5`. -/
theorem download_cursor_witness :
    requestedSeqAt (-1) 0 = 0 ∧
    requestedSeqAt 42 0 = 43 ∧
    requestedSeqAt 42 5 = 43 + 5 ∧
    (∀ j, j ≤ 42 → requestedSeqAt 42 5 ≠ j) ∧
    requestedSeqAt (-1) 5 = 5 ∧
    requestedSeqAt (-1) (5 + 1) = requestedSeqAt (-1) 5 + 1 :=
  download_cursor 5 (by norm_num)

/-- Witness for `changed_deleted_partition`: a concrete effects value
with disjoint halves. -/
theorem changed_deleted_partition_witness :
    (∀ i ∈ changedIds overlapWitnessEffects,
        i ∉ deletedIds overlapWitnessEffects 3 (some 5)) ∧
    (∀ i ∈ deletedIds overlapWitnessEffects 3 (some 5),
        i ∉ changedIds overlapWitnessEffects) ∧
    changedIds overlapWitnessEffects
        ++ deletedIds overlapWitnessEffects 3 (some 5)
      = footprintIds overlapWitnessEffects :=
  changed_deleted_partition overlapWitnessEffects 3 (some 5) (by decide)

end SuiIndexer
